import Mathlib

/-!
Verification development for the `sqla-pagination` repository.

The repository implements keyset (seek) pagination and limit/offset
pagination over SQLAlchemy queries.  This file gives a shallow embedding of
the core data model and operations:

* the ordering-expression wrapper chain manipulated by
  `sqlapagination/paginators/keyset/utils/ordering.py`
  (`_get_order_direction`, `_reverse_order_direction`,
  `_remove_order_direction`, `OrderByColumnWrapper.reversed`);
* the keyset paginator of
  `sqlalchemy_pagination/paginators/keyset/paginator.py`
  (`_apply_filter_condition_if_required`, `_compare_sql_row_values`,
  `get_modified_sql_statement`, `parse_result`);
* the keyset page builder of `sqlapagination/paginators/keyset/page.py`
  (`KeySetPage.__init__` and its properties);
* the limit/offset page of
  `sqlalchemy_pagination/paginators/limit_offset/page.py`.

Python exceptions are modelled with `Except`; machine integers are `Int`
(Python ints are unbounded, so no wrap-around modelling is needed).
-/

/-- Python exceptions raised by the paginator code. -/
inductive PaginationError where
  /-- `KeySetPairsMismatchQueryError`; carries the bookmark key names and the
  ordering-key names that were compared (the data interpolated into the
  Python message). -/
  | keySetPairsMismatchQueryError (keysetKeys orderByNames : List String)
  /-- Python `KeyError` from a missing dictionary key. -/
  | keyError (key : String)
  /-- Python `ValueError`. -/
  | valueError (msg : String)
  /-- Python bare `Exception(msg)` (used for the wrapping-overflow guard). -/
  | exceptionError (msg : String)
  deriving DecidableEq, Repr

/-- `PaginationError.isMismatch` tests for `KeySetPairsMismatchQueryError`. -/
def PaginationError.isMismatch : PaginationError → Bool
  | .keySetPairsMismatchQueryError _ _ => true
  | _ => false

/-!
## Ordering-expression wrapper chains
(`sqlapagination/paginators/keyset/utils/ordering.py`)

A SQLAlchemy ordering expression is a chain of wrappers around a base
column: `Label`/`_label_reference` nodes (an `element` attribute, no
`modifier`) and `UnaryExpression` nodes (an `element` and a `modifier`,
possibly `None`).  The chain bottoms out at a plain column, which has
neither attribute.
-/

/-- The order modifiers `asc_op`, `desc_op`, `nullsfirst_op`, `nullslast_op`
(`_ORDER_MODIFIERS` in the source). -/
inductive Modifier where
  | ascOp
  | descOp
  | nullsfirstOp
  | nullslastOp
  deriving DecidableEq, Repr

/-- A SQLAlchemy column-expression wrapper chain, as walked by the ordering
utilities: a base column (no `element` attribute), a label wrapper
(`element`, no `modifier`), or a `UnaryExpression` (`element` plus an
optional `modifier`). -/
inductive ColElem where
  | col (name : String)
  | label (name : String) (element : ColElem)
  | unary (modifier : Option Modifier) (element : ColElem)
  deriving DecidableEq, Repr

/-- `_WRAPPING_DEPTH = 1000` in the source. -/
def WRAPPING_DEPTH : Nat := 1000

/-- `_WRAPPING_OVERFLOW` message from the source (apostrophes spelled
out). -/
def WRAPPING_OVERFLOW : String :=
  "Maximum element wrapping depth reached; there is " ++
  "probably a circularity in sqlalchemy that " ++
  "sqlapagination does not know how to handle."

/-- `_get_order_direction(column_element)`: recursively reads
`column_element.modifier`; returns it when it is `asc_op`/`desc_op`,
otherwise recurses into `column_element.element`; `None` when the chain
bottoms out.  NOTE: the Python function is unbounded recursion — it has no
`_WRAPPING_DEPTH` guard. -/
def get_order_direction : ColElem → Option Modifier
  | .col _ => none
  | .label _ e => get_order_direction e
  | .unary m e =>
    match m with
    | some .ascOp => some .ascOp
    | some .descOp => some .descOp
    | _ => get_order_direction e

/-- The loop body of `_reverse_order_direction`, with the remaining
iteration count of `for _ in range(_WRAPPING_DEPTH)` as explicit fuel.
Each iteration examines one node: a node whose `modifier` is
`asc_op`/`desc_op` has the modifier flipped and the whole (cloned) chain is
returned; a node with no `element` attribute ends the walk returning the
chain unchanged; otherwise the walk descends.  Exhausting the fuel raises
`Exception(_WRAPPING_OVERFLOW)`. -/
def reverseAux : Nat → ColElem → Except PaginationError ColElem
  | 0, _ => .error (.exceptionError WRAPPING_OVERFLOW)
  | _ + 1, .col n => .ok (.col n)
  | fuel + 1, .label n e =>
    match reverseAux fuel e with
    | .error err => .error err
    | .ok e' => .ok (.label n e')
  | fuel + 1, .unary m e =>
    match m with
    | some .ascOp => .ok (.unary (some .descOp) e)
    | some .descOp => .ok (.unary (some .ascOp) e)
    | _ =>
      match reverseAux fuel e with
      | .error err => .error err
      | .ok e' => .ok (.unary m e')

/-- `_reverse_order_direction(column_element)`. -/
def reverse_order_direction (e : ColElem) : Except PaginationError ColElem :=
  reverseAux WRAPPING_DEPTH e

/-- The loop body of `_remove_order_direction`, with the remaining
iteration count of `for _ in range(_WRAPPING_DEPTH)` as explicit fuel.
A node whose `modifier` is one of the four `_ORDER_MODIFIERS` is spliced
out of the chain (the nulls modifiers additionally emit a warning, which is
advisory only and not modelled); a node with no `element` attribute ends
the walk; otherwise the walk keeps the node and descends.  Exhausting the
fuel raises `Exception(_WRAPPING_OVERFLOW)`. -/
def removeAux : Nat → ColElem → Except PaginationError ColElem
  | 0, _ => .error (.exceptionError WRAPPING_OVERFLOW)
  | _ + 1, .col n => .ok (.col n)
  | fuel + 1, .label n e =>
    match removeAux fuel e with
    | .error err => .error err
    | .ok e' => .ok (.label n e')
  | fuel + 1, .unary m e =>
    match m with
    | some _ => removeAux fuel e
    | none =>
      match removeAux fuel e with
      | .error err => .error err
      | .ok e' => .ok (.unary none e')

/-- `_remove_order_direction(column_element)`. -/
def remove_order_direction (e : ColElem) : Except PaginationError ColElem :=
  removeAux WRAPPING_DEPTH e

/-- The normalisation performed by `OrderByColumnWrapper.__init__`: an
expression with no order direction is wrapped in `asc(...)` (a
`UnaryExpression` with modifier `asc_op`). -/
def wrapperNormalize (e : ColElem) : ColElem :=
  if get_order_direction e = none then .unary (some .ascOp) e else e

/-- `OrderByColumnWrapper.reversed`: reverse the direction of the wrapped
expression and rebuild the wrapper (re-running the constructor
normalisation). -/
def wrapper_reversed (e : ColElem) : Except PaginationError ColElem :=
  match reverse_order_direction e with
  | .error err => .error err
  | .ok e' => .ok (wrapperNormalize e')

/-- A chain of `n` label wrappers around a base expression; used to probe
the depth guards on arbitrarily deep chains. -/
def labelChain : Nat → ColElem → ColElem
  | 0, e => e
  | n + 1, e => .label "l" (labelChain n e)

/-!
## Rows, SQL predicates, statements

Rows are modelled as association lists from column name to integer value
(the shape the paginator reads via `get_value_from_row_by_column_name`).
The SQL boolean expressions built by `_compare_sql_row_values` are a small
predicate language evaluated against a row; constants from the bookmark
appear as literals.
-/

/-- A result row / ORM entity: column name to value. -/
def Row : Type := List (String × Int)

instance : DecidableEq Row := by unfold Row; infer_instance

instance : Repr Row := inferInstanceAs (Repr (List (String × Int)))

/-- `get_value_from_row_by_column_name(row, column_name)`
(`sqlalchemy_pagination/utils.py`): attribute access on the row.  Python
raises on a missing attribute; every use in this development has the
column present, so the total variant defaults to `0`. -/
def get_value_from_row_by_column_name (row : Row) (column_name : String) : Int :=
  (row.lookup column_name).getD 0

/-- An operand of a comparison: a column reference of the query, or a
bound literal taken from the bookmark. -/
inductive SqlOperand where
  | colRef (name : String)
  | lit (v : Int)
  deriving DecidableEq, Repr

/-- Evaluate an operand against a row. -/
def SqlOperand.evalOp (row : Row) : SqlOperand → Int
  | .colRef name => get_value_from_row_by_column_name row name
  | .lit v => v

/-- Python/SQL tuple comparison `lesser < greater` (lexicographic; a
shorter tuple that is a prefix of a longer one compares less). -/
def tupleLtB : List Int → List Int → Bool
  | [], [] => false
  | [], _ :: _ => true
  | _ :: _, [] => false
  | a :: as, b :: bs => if a < b then true else if a = b then tupleLtB as bs else false

/-- SQL boolean expressions produced by `_compare_sql_row_values`:
`<` and `==` on operands, `or_(...)`, `and_(...)`, and the native row-value
comparison `tuple_(*lesser) < tuple_(*greater)`. -/
inductive SqlPred where
  | ltP (a b : SqlOperand)
  | eqP (a b : SqlOperand)
  | orP (ps : List SqlPred)
  | andP (ps : List SqlPred)
  | tupleLtP (lesser greater : List SqlOperand)

mutual
/-- Evaluate a predicate against a row (the semantics the SQL backend gives
the emitted boolean expression). -/
def evalPred (row : Row) : SqlPred → Bool
  | .ltP a b => a.evalOp row < b.evalOp row
  | .eqP a b => a.evalOp row = b.evalOp row
  | .orP ps => evalAny row ps
  | .andP ps => evalAll row ps
  | .tupleLtP lesser greater =>
    tupleLtB (lesser.map (SqlOperand.evalOp row)) (greater.map (SqlOperand.evalOp row))

/-- Disjunction of a list of predicates. -/
def evalAny (row : Row) : List SqlPred → Bool
  | [] => false
  | p :: ps => evalPred row p || evalAny row ps

/-- Conjunction of a list of predicates. -/
def evalAll (row : Row) : List SqlPred → Bool
  | [] => true
  | p :: ps => evalPred row p && evalAll row ps
end

/-- One ordering key as the paginator consumes it: the (table-qualified)
column name exposed by `OrderByColumnWrapper.name` and the direction
exposed by `OrderByColumnWrapper.is_ascending`. -/
structure OrderKey where
  name : String
  ascending : Bool
  deriving DecidableEq, Repr

/-- `OrderByColumnWrapper.reversed` at the paginator level: same column,
flipped direction (the underlying element, hence the name, is unchanged —
see `ordering_reversal_involution` for the wrapper-chain level). -/
def OrderKey.reversedKey (k : OrderKey) : OrderKey :=
  { k with ascending := !k.ascending }

/-- The SQL statement surface the paginator manipulates: the resolved
ordering keys of its ORDER BY clause, WHERE and HAVING predicates, GROUP BY
column names, and an optional LIMIT. -/
structure Statement where
  order_by : List OrderKey
  wheres : List SqlPred
  havings : List SqlPred
  group_by : List String
  limitRows : Option Nat

/-- A keyset bookmark: the Python dict with optional `"direction"` and
`"keyset_pairs"` entries (`keyset_pairs` is an ordered mapping from key
name to value). -/
structure Bookmark where
  direction : Option String
  keyset_pairs : Option (List (String × Int))
  deriving DecidableEq, Repr

/-- The empty dict `{}` used when no bookmark is given. -/
def emptyBookmark : Bookmark := ⟨none, none⟩

/-- Python truthiness of the bookmark dict (`if not self._bookmark`). -/
def Bookmark.isEmptyDict (b : Bookmark) : Bool :=
  b.direction.isNone && b.keyset_pairs.isNone

/-!
## KeySetPaginator
(`sqlalchemy_pagination/paginators/keyset/paginator.py`)
-/

/-- `SUPPORTS_NATIVE_ROW_VALUES_COMPARISON` from the source. -/
def SUPPORTS_NATIVE_ROW_VALUES_COMPARISON : List String :=
  ["postgresql", "mysql", "sqlite"]

/-- The dialect check guarding the native row-values branch:
`self._dialect is not None and self._dialect.name.lower() in
SUPPORTS_NATIVE_ROW_VALUES_COMPARISON`.  A dialect is modelled by its
name. -/
def dialectSupportsNativeRowValues (dialect : Option String) : Bool :=
  match dialect with
  | none => false
  | some name => SUPPORTS_NATIVE_ROW_VALUES_COMPARISON.contains name.toLower

/-- `KeySetPaginator._compare_sql_row_values(lesser, greater)`: a
`ValueError` on unequal lengths; a plain `<` for one key; the native
row-values comparison when the dialect supports it; otherwise the
decomposed lexicographic expansion
`or_(*[and_(*[lesser[i] == greater[i] for i in range(eq_depth)],
lesser[eq_depth] < greater[eq_depth]) for eq_depth in range(len(lesser))])`. -/
def compare_sql_row_values (dialect : Option String)
    (lesser greater : List SqlOperand) : Except PaginationError SqlPred :=
  if lesser.length ≠ greater.length then
    .error (.valueError "Tuples must have same length to be compared!")
  else if lesser.length = 1 then
    .ok (.ltP (lesser.getD 0 (.lit 0)) (greater.getD 0 (.lit 0)))
  else if dialectSupportsNativeRowValues dialect then
    .ok (.tupleLtP lesser greater)
  else
    .ok (.orP ((List.range lesser.length).map fun eq_depth =>
      .andP (((List.range eq_depth).map fun index =>
                SqlPred.eqP (lesser.getD index (.lit 0)) (greater.getD index (.lit 0)))
             ++ [SqlPred.ltP (lesser.getD eq_depth (.lit 0)) (greater.getD eq_depth (.lit 0))])))

/-- `OrderByColumnWrapper.pair_for_comparison(value, dialect)`: the pair
`(a, b)` such that `a < b` is the condition for this column being past
`value` in paging order — `(column, value)` for an ascending key and
`(value, column)` for a descending one.  (The `bind_processor` value
preprocessing is a try/except no-op for plain integer columns and is not
modelled.) -/
def pair_for_comparison (k : OrderKey) (value : Int) : SqlOperand × SqlOperand :=
  if k.ascending then (.colRef k.name, .lit value) else (.lit value, .colRef k.name)

/-- `KeySetPaginator` instance state after `__init__`:
`_order_by_columns` is the parsed ORDER BY clause, reversed when the
bookmark walks backward.  (`_scaffold_order_by_clauses` resolves each
wrapper against the selected columns; for the queries modelled here every
ordering key is selected directly, so the resolved clause of a key is the
key itself.) -/
structure KeySetPaginatorState where
  select_or_query : Statement
  page_size : Nat
  dialect : Option String
  bookmark : Bookmark
  order_by_columns : List OrderKey

/-- `parse_order_by_clause(selectable)`: the ordering keys of the
statement's ORDER BY clause. -/
def parse_order_by_clause (q : Statement) : List OrderKey :=
  q.order_by

/-- `KeySetPaginator._should_reverse_order_by_clause`:
`self._bookmark.get("direction", "forward") == "backward"`. -/
def should_reverse_order_by_clause (bm : Bookmark) : Bool :=
  bm.direction.getD "forward" = "backward"

/-- `KeySetPaginator.__init__(query_or_select, page_size, dialect,
bookmark)`. -/
def mkKeySetPaginator (query_or_select : Statement) (page_size : Nat)
    (dialect : Option String) (bookmark : Option Bookmark) : KeySetPaginatorState :=
  let bm := bookmark.getD emptyBookmark
  let cols := parse_order_by_clause query_or_select
  let cols := if should_reverse_order_by_clause bm then cols.map OrderKey.reversedKey else cols
  ⟨query_or_select, page_size, dialect, bm, cols⟩

/-- `KeySetPaginator._apply_filter_condition_if_required`: an empty
bookmark leaves the query untouched; otherwise the bookmark's
`keyset_pairs` key names must equal the ordering-key names (in order) or a
`KeySetPairsMismatchQueryError` is raised before the filter is built; then
the swapped comparison pairs feed `_compare_sql_row_values` and the
condition attaches as HAVING when the query groups rows, else as WHERE.
(`greater_row, lesser_row = zip(*swapped)` raises a `ValueError` when
`swapped` is empty.) -/
def apply_filter_condition_if_required (p : KeySetPaginatorState) :
    Except PaginationError Statement :=
  if p.bookmark.isEmptyDict then .ok p.select_or_query
  else
    match p.bookmark.keyset_pairs with
    | none => .error (.keyError "keyset_pairs")
    | some keyset_pairs =>
      let order_by_column_names := p.order_by_columns.map (·.name)
      if order_by_column_names ≠ keyset_pairs.map (·.1) then
        .error (.keySetPairsMismatchQueryError (keyset_pairs.map (·.1)) order_by_column_names)
      else
        let swapped := (p.order_by_columns.zip (keyset_pairs.map (·.2))).map
          fun cv => pair_for_comparison cv.1 cv.2
        if swapped.isEmpty then
          .error (.valueError "not enough values to unpack (expected 2, got 0)")
        else
          let greater_row := swapped.map (·.1)
          let lesser_row := swapped.map (·.2)
          match compare_sql_row_values p.dialect lesser_row greater_row with
          | .error err => .error err
          | .ok filter_condition =>
            if p.select_or_query.group_by ≠ [] then
              .ok { p.select_or_query with
                    havings := p.select_or_query.havings ++ [filter_condition] }
            else
              .ok { p.select_or_query with
                    wheres := p.select_or_query.wheres ++ [filter_condition] }

/-- `KeySetPaginator.get_modified_sql_statement`: the filtered query with
its ORDER BY replaced (`order_by(None).order_by(*self._order_by_clauses)`)
by the resolved key sequence and a LIMIT of `self._page_size + 1`. -/
def get_modified_sql_statement (p : KeySetPaginatorState) :
    Except PaginationError Statement :=
  match apply_filter_condition_if_required p with
  | .error err => .error err
  | .ok s =>
    .ok { s with order_by := p.order_by_columns,
                 limitRows := some (p.page_size + 1) }

/-!
## KeySetPage (`sqlapagination/paginators/keyset/page.py`)
-/

/-- `ParsingMetadata` (dataclass in the paginator module). -/
structure ParsingMetadata where
  page_size : Nat
  order_by_columns : List OrderKey
  bookmark : Bookmark
  deriving DecidableEq, Repr

/-- `ParsingMetadata.__post_init__`: `expected_entries_count =
page_size + 1`. -/
def ParsingMetadata.expected_entries_count (m : ParsingMetadata) : Nat :=
  m.page_size + 1

/-- Python `a or b` on optional keyset-pair dicts: an empty dict is falsy,
so it falls through to `b` just like `None` does. -/
def pyOrPairs (a b : Option (List (String × Int))) : Option (List (String × Int)) :=
  match a with
  | none => b
  | some ps => if ps.isEmpty then b else some ps

/-- The state a `KeySetPage` holds after `__init__`: `rows` is the
`_rows` list exposed through `__len__`/`__getitem__`/`__iter__`. -/
structure KeySetPage where
  rows : List Row
  keyset_pairs_table : List (Int × List (String × Int))
  metadata : ParsingMetadata
  previous_bookmark : Bookmark
  first_keyset_pair : Option (List (String × Int))
  last_keyset_pair : Option (List (String × Int))
  additional_keyset_pair : Option (List (String × Int))
  next_keyset_pair : Option (List (String × Int))
  previous_keyset_pair : Option (List (String × Int))
  deriving DecidableEq, Repr

/-- `KeySetPage.__init__(rows, parsing_metadata)`:
trim `_rows` to `page_size`; build `_keyset_pairs_table` over ALL fetched
rows (indices are Python ints, so the `len(self._rows) - 1` lookup for an
empty page probes key `-1`); on a backward bookmark reverse both the table
iteration order and the trimmed rows; `_next_keyset_pair` is the lookahead
pair `or` the last shown pair; `_previous_keyset_pair` is the originating
bookmark's `keyset_pairs`. -/
def mkKeySetPage (rows : List Row) (parsing_metadata : ParsingMetadata) : KeySetPage :=
  let shown := rows.take parsing_metadata.page_size
  let table : List (Int × List (String × Int)) :=
    rows.enum.map fun ir =>
      ((ir.1 : Int), parsing_metadata.order_by_columns.map fun c =>
        (c.name, get_value_from_row_by_column_name ir.2 c.name))
  let previous_bookmark := parsing_metadata.bookmark
  let backward := previous_bookmark.direction.getD "forward" = "backward"
  let table := if backward then table.reverse else table
  let shown := if backward then shown.reverse else shown
  let first_keyset_pair := table.lookup (0 : Int)
  let last_keyset_pair := table.lookup ((shown.length : Int) - 1)
  let additional_keyset_pair := table.lookup (shown.length : Int)
  let next_keyset_pair := pyOrPairs additional_keyset_pair last_keyset_pair
  let previous_keyset_pair := previous_bookmark.keyset_pairs
  ⟨shown, table, parsing_metadata, previous_bookmark, first_keyset_pair,
   last_keyset_pair, additional_keyset_pair, next_keyset_pair, previous_keyset_pair⟩

/-- `KeySetPage.total_pages_count`: always raises `TypeError`. -/
def KeySetPage.total_pages_count (_ : KeySetPage) : Except String Int :=
  .error "TypeError: KeySetPage does not support total_pages_count"

/-- `KeySetPage.current_page_number`: always raises `TypeError`. -/
def KeySetPage.current_page_number (_ : KeySetPage) : Except String Int :=
  .error "TypeError: KeySetPage does not support current_page_number property"

/-- `KeySetPage.has_next`: `self._next_keyset_pair is not None`. -/
def KeySetPage.has_next (pg : KeySetPage) : Bool :=
  pg.next_keyset_pair.isSome

/-- `KeySetPage.next`: `{}` when `has_next` is false, else the forward
bookmark around `_next_keyset_pair`. -/
def KeySetPage.next (pg : KeySetPage) : Bookmark :=
  if pg.has_next = false then emptyBookmark
  else ⟨some "forward", pg.next_keyset_pair⟩

/-- `KeySetPage.has_previous`: `self._previous_keyset_pair is not None`. -/
def KeySetPage.has_previous (pg : KeySetPage) : Bool :=
  pg.previous_keyset_pair.isSome

/-- `KeySetPage.previous`: `{}` when `has_previous` is false, else the
backward bookmark around `_previous_keyset_pair`. -/
def KeySetPage.previous (pg : KeySetPage) : Bookmark :=
  if pg.has_previous = false then emptyBookmark
  else ⟨some "backward", pg.previous_keyset_pair⟩

/-- `AbstractPage.__len__` as inherited by `KeySetPage`
(`sqlapagination/page.py`): the length of `_rows`. -/
def KeySetPage.lenPage (pg : KeySetPage) : Nat :=
  pg.rows.length

/-- `AbstractPage.__getitem__` (indexing into `_rows`); out-of-range
indices raise in Python and are totalised with a default row here. -/
def KeySetPage.getItem (pg : KeySetPage) (i : Nat) : Row :=
  pg.rows.getD i []

/-- `KeySetPaginator.parse_result(resulted_rows)`: build the page from the
fetched rows and the paginator's metadata.  (Rows are modelled as the
mapped entity itself, so `unpack_rows_if_row_contains_only_orm_model` is
the identity here.) -/
def parse_result (p : KeySetPaginatorState) (resulted_rows : List Row) : KeySetPage :=
  mkKeySetPage resulted_rows ⟨p.page_size, p.order_by_columns, p.bookmark⟩

/-!
## Executing a statement against an in-memory store

The backing store is an external collaborator; the spec describes its
interface only ("caller executes it against the store").  The model below
gives the standard SQL semantics for the non-aggregated statements built
here: filter by the WHERE/HAVING predicates, sort by the ORDER BY keys
(lexicographically, honouring per-key direction), apply the LIMIT.
-/

/-- Lexicographic row comparison along a key sequence, honouring each
key's direction. -/
def rowLe (keys : List OrderKey) (a b : Row) : Bool :=
  match keys with
  | [] => true
  | k :: ks =>
    let va := get_value_from_row_by_column_name a k.name
    let vb := get_value_from_row_by_column_name b k.name
    let x := if k.ascending then va else vb
    let y := if k.ascending then vb else va
    if x < y then true
    else if y < x then false
    else rowLe ks a b

/-- Insert a row into a sorted list (insertion sort step). -/
def insertRow (le : Row → Row → Bool) (r : Row) : List Row → List Row
  | [] => [r]
  | x :: xs => if le r x then r :: x :: xs else x :: insertRow le r xs

/-- Stable insertion sort of rows. -/
def sortRows (le : Row → Row → Bool) : List Row → List Row
  | [] => []
  | x :: xs => insertRow le x (sortRows le xs)

/-- Execute a statement against an in-memory store of rows. -/
def executeStatement (store : List Row) (s : Statement) : List Row :=
  let rows := store.filter fun r =>
    s.wheres.all (fun p => evalPred r p) && s.havings.all (fun p => evalPred r p)
  let rows := sortRows (rowLe s.order_by) rows
  match s.limitRows with
  | none => rows
  | some n => rows.take n

/-!
## LimitOffsetPage
(`sqlalchemy_pagination/paginators/limit_offset/page.py`)
-/

/-- `LimitOffsetPage` state after `__init__`. -/
structure LimitOffsetPage where
  rows : List Row
  page_size : Int
  rows_count : Int
  current_offset : Int
  deriving DecidableEq, Repr

/-- `LimitOffsetPage.has_previous`:
`if self._current_offset == 0 or self._current_offset < self._page_size:
return False` followed by `return self._current_offset < self._page_size`. -/
def LimitOffsetPage.has_previous (p : LimitOffsetPage) : Bool :=
  if p.current_offset = 0 || p.current_offset < p.page_size then false
  else decide (p.current_offset < p.page_size)

/-- `LimitOffsetPage.previous`: `{}` (modelled `none`) when `has_previous`
is false, else `{"offset": self._current_offset - self._page_size}`
(modelled `some offset`). -/
def LimitOffsetPage.previous (p : LimitOffsetPage) : Option Int :=
  if p.has_previous = false then none
  else some (p.current_offset - p.page_size)

/-!
## The round-trip scenario of the spec (rows 1..5, ascending id, page 2)
-/

/-- A store row with a single `id` column. -/
def mkRow (i : Int) : Row := [("id", i)]

/-- The backing store holding rows with ids 1..5. -/
def store5 : List Row := [mkRow 1, mkRow 2, mkRow 3, mkRow 4, mkRow 5]

/-- The base query: ordered ascending by `id`, no filters, no limit. -/
def c2Base : Statement := ⟨[⟨"id", true⟩], [], [], [], none⟩

/-- One full fetch of the round-trip scenario: construct the paginator
(page_size 2, no dialect) with the given bookmark, emit the modified
statement, execute it against the store, and parse the result into a
page. -/
def c2Fetch (bm : Option Bookmark) : Except PaginationError KeySetPage :=
  let p := mkKeySetPaginator c2Base 2 none bm
  match get_modified_sql_statement p with
  | .error e => .error e
  | .ok stmt => .ok (parse_result p (executeStatement store5 stmt))

/-- The five-row fetch of the lookahead scenario: all of `store5` parsed
with page_size 5 and no bookmark. -/
def c4Page : KeySetPage :=
  mkKeySetPage store5 ⟨5, [⟨"id", true⟩], emptyBookmark⟩

/-!
## Theorems
-/

/-- C2: evaluation of the round-trip scenario at the claim's concrete
input.  Rows 1..5 ordered ascending by id with page_size 2: the first
fetch shows rows 1,2 but its `next` bookmark is `[("id", 3)]` — the
lookahead row's pair, not the last shown row's pair `[("id", 2)]` that the
claim states; fetching with the bookmark `[("id", 2)]` forward does show
rows 3,4 with `previous = [("id", 2)]` backward, as the claim states; but
fetching with that `previous` bookmark yields only row 1, not rows 1,2. -/
theorem keyset_round_trip_divergence :
    (c2Fetch none).map (fun pg => (pg.rows, pg.next)) =
      .ok ([mkRow 1, mkRow 2], ⟨some "forward", some [("id", 3)]⟩) ∧
    (c2Fetch (some ⟨some "forward", some [("id", 2)]⟩)).map
        (fun pg => (pg.rows, pg.previous)) =
      .ok ([mkRow 3, mkRow 4], ⟨some "backward", some [("id", 2)]⟩) ∧
    (c2Fetch (some ⟨some "backward", some [("id", 2)]⟩)).map (fun pg => pg.rows) =
      .ok [mkRow 1] := by
  refine ⟨rfl, rfl, rfl⟩

/-- C4: evaluation of the lookahead scenario at the claim's concrete
input.  With 5 rows and page_size 5 the page shows all 5 rows and no
lookahead pair exists, yet `has_next` is `true` (the code falls back to
the last shown row's pair), where the claim — and the code's own comment
that the additional keyset pair "determines whether there are more
entries" — requires `false`. -/
theorem lookahead_has_next_divergence :
    c4Page.rows = store5 ∧
    c4Page.additional_keyset_pair = none ∧
    c4Page.has_next = true := by
  refine ⟨rfl, rfl, rfl⟩

/-- C8: `KeySetPage.total_pages_count` and
`KeySetPage.current_page_number` always raise `TypeError`, never
returning a numeric value. -/
theorem keyset_page_unsupported_props (pg : KeySetPage) :
    pg.total_pages_count =
      .error "TypeError: KeySetPage does not support total_pages_count" ∧
    pg.current_page_number =
      .error "TypeError: KeySetPage does not support current_page_number property" := by
  exact ⟨rfl, rfl⟩

/-- C5: a `KeySetPage` never exposes more than `page_size` rows: its
`_rows` (hence `__len__`, `__getitem__` and `__iter__`) hold at most
`page_size` rows, all drawn from the first `page_size` fetched rows after
trimming. -/
theorem page_row_exposure_bound (rows : List Row) (md : ParsingMetadata) :
    (mkKeySetPage rows md).lenPage ≤ md.page_size ∧
    ∀ r ∈ (mkKeySetPage rows md).rows, r ∈ rows.take md.page_size := by
  unfold KeySetPage.lenPage mkKeySetPage
  simp only []
  by_cases h : md.bookmark.direction.getD "forward" = "backward"
  · simp [h, List.length_take]
  · simp [h, List.length_take]

/-- C10: `LimitOffsetPage.has_previous` is `false` for every page with
`page_size > 0` and `offset ≥ 0`: the first branch returns `False`
whenever `offset < page_size` (including `offset == 0`), and the final
`offset < page_size` test is only reached when `offset ≥ page_size`, so it
is `False` too; consequently `previous` always returns the empty
bookmark. -/
theorem limit_offset_has_previous_always_false
    (rows : List Row) (page_size offset rows_count : Int)
    (hp : 0 < page_size) (ho : 0 ≤ offset) :
    (LimitOffsetPage.mk rows page_size rows_count offset).has_previous = false ∧
    (LimitOffsetPage.mk rows page_size rows_count offset).previous = none := by
  have h : (LimitOffsetPage.mk rows page_size rows_count offset).has_previous = false := by
    unfold LimitOffsetPage.has_previous
    by_cases hc : offset = 0 ∨ offset < page_size
    · simp [hc]
    · push_neg at hc
      simp [hc.1, hc.2, not_lt.mpr hc.2]
  refine ⟨h, ?_⟩
  unfold LimitOffsetPage.previous
  simp [h]

/-- C10 witness: concrete instantiation at `page_size = 3`,
`offset = 7`. -/
theorem limit_offset_has_previous_always_false_witness :
    (LimitOffsetPage.mk [] 3 10 7).has_previous = false ∧
    (LimitOffsetPage.mk [] 3 10 7).previous = none :=
  limit_offset_has_previous_always_false [] 3 7 10 (by decide) (by decide)

/-- C6: whenever `get_modified_sql_statement` emits a statement, that
statement carries a row limit of exactly `page_size + 1`, and its ORDER BY
clause is exactly the paginator's resolved ordering-key sequence
(`order_by(None)` wipes the base ordering before the resolved keys are
installed, so nothing is appended). -/
theorem modified_statement_limit_and_order
    (q : Statement) (page_size : Nat) (dialect : Option String)
    (bookmark : Option Bookmark) (out : Statement)
    (h : get_modified_sql_statement (mkKeySetPaginator q page_size dialect bookmark) =
      .ok out) :
    out.limitRows = some (page_size + 1) ∧
    out.order_by = (mkKeySetPaginator q page_size dialect bookmark).order_by_columns := by
  unfold get_modified_sql_statement at h
  revert h
  cases happ : apply_filter_condition_if_required
      (mkKeySetPaginator q page_size dialect bookmark) with
  | error e => intro h; cases h
  | ok s => intro h; cases h; exact ⟨rfl, rfl⟩

/-- C6 witness: the base scenario statement with no bookmark and
page_size 2 is emitted with limit 3 and ORDER BY the single ascending
`id` key. -/
theorem modified_statement_limit_and_order_witness :
    (⟨[⟨"id", true⟩], [], [], [], some 3⟩ : Statement).limitRows = some (2 + 1) ∧
    (⟨[⟨"id", true⟩], [], [], [], some 3⟩ : Statement).order_by =
      (mkKeySetPaginator c2Base 2 none none).order_by_columns :=
  modified_statement_limit_and_order c2Base 2 none none _ rfl

/-- The only exception `_compare_sql_row_values` raises is a
`ValueError`, never a `KeySetPairsMismatchQueryError`. -/
theorem compare_sql_row_values_error_not_mismatch
    (dialect : Option String) (lesser greater : List SqlOperand)
    (err : PaginationError)
    (h : compare_sql_row_values dialect lesser greater = .error err) :
    err.isMismatch = false := by
  unfold compare_sql_row_values at h
  split at h
  · cases h; rfl
  · split at h
    · cases h
    · split at h <;> cases h

/-- With a bookmark whose `keyset_pairs` key names differ from the
ordering-key names, `_apply_filter_condition_if_required` raises the
mismatch error. -/
theorem apply_filter_mismatch_when_names_ne (p : KeySetPaginatorState)
    (pairs : List (String × Int))
    (hemp : p.bookmark.isEmptyDict = false)
    (hk : p.bookmark.keyset_pairs = some pairs)
    (hne : p.order_by_columns.map (·.name) ≠ pairs.map (·.1)) :
    apply_filter_condition_if_required p =
      .error (.keySetPairsMismatchQueryError (pairs.map (·.1))
        (p.order_by_columns.map (·.name))) := by
  unfold apply_filter_condition_if_required
  rw [hemp, hk]
  simp only [Bool.false_eq_true, if_false]
  rw [if_pos hne]

/-- With a bookmark whose `keyset_pairs` key names equal the ordering-key
names, `_apply_filter_condition_if_required` never raises the mismatch
error. -/
theorem apply_filter_no_mismatch_when_names_eq (p : KeySetPaginatorState)
    (pairs : List (String × Int))
    (hk : p.bookmark.keyset_pairs = some pairs)
    (heq : p.order_by_columns.map (·.name) = pairs.map (·.1))
    (err : PaginationError)
    (h : apply_filter_condition_if_required p = .error err) :
    err.isMismatch = false := by
  unfold apply_filter_condition_if_required at h
  rw [hk] at h
  split at h
  · cases h
  · dsimp only at h
    rw [if_neg (not_not_intro heq)] at h
    split at h
    · cases h; rfl
    · split at h
      · rename_i e he
        cases h
        exact compare_sql_row_values_error_not_mismatch _ _ _ _ he
      · split at h <;> cases h

/-- `get_modified_sql_statement` errors exactly when
`_apply_filter_condition_if_required` does, with the same exception. -/
theorem get_modified_error_iff (p : KeySetPaginatorState) (err : PaginationError) :
    get_modified_sql_statement p = .error err ↔
    apply_filter_condition_if_required p = .error err := by
  unfold get_modified_sql_statement
  cases h : apply_filter_condition_if_required p <;> simp [h]

/-- C1: every bookmark carrying `keyset_pairs` whose key-name sequence
differs from the resolved ordering-key names makes
`get_modified_sql_statement` fail with `KeySetPairsMismatchQueryError`
(the validation sits ahead of the filter/order/limit construction, so the
error result carries no modified statement); and when the two name
sequences are equal, no mismatch error is ever raised. -/
theorem keyset_bookmark_mismatch_validation
    (q : Statement) (page_size : Nat) (dialect : Option String)
    (dir : Option String) (pairs : List (String × Int)) :
    ((mkKeySetPaginator q page_size dialect
        (some ⟨dir, some pairs⟩)).order_by_columns.map (·.name) ≠ pairs.map (·.1) →
      get_modified_sql_statement (mkKeySetPaginator q page_size dialect
          (some ⟨dir, some pairs⟩)) =
        .error (.keySetPairsMismatchQueryError (pairs.map (·.1))
          ((mkKeySetPaginator q page_size dialect
            (some ⟨dir, some pairs⟩)).order_by_columns.map (·.name)))) ∧
    ((mkKeySetPaginator q page_size dialect
        (some ⟨dir, some pairs⟩)).order_by_columns.map (·.name) = pairs.map (·.1) →
      ∀ err, get_modified_sql_statement (mkKeySetPaginator q page_size dialect
          (some ⟨dir, some pairs⟩)) = .error err → err.isMismatch = false) := by
  set p := mkKeySetPaginator q page_size dialect (some ⟨dir, some pairs⟩) with hp
  have hbm : p.bookmark = ⟨dir, some pairs⟩ := by rw [hp]; rfl
  have hk : p.bookmark.keyset_pairs = some pairs := by rw [hbm]
  have hemp : p.bookmark.isEmptyDict = false := by
    rw [hbm]; unfold Bookmark.isEmptyDict; simp
  constructor
  · intro hne
    rw [get_modified_error_iff]
    exact apply_filter_mismatch_when_names_ne p pairs hemp hk hne
  · intro heq err herr
    rw [get_modified_error_iff] at herr
    exact apply_filter_no_mismatch_when_names_eq p pairs hk heq err herr

/-- C1 witness: the scenario query (ordered by `id`) with a bookmark keyed
by `name` is rejected with the mismatch error. -/
theorem keyset_bookmark_mismatch_validation_witness :
    get_modified_sql_statement (mkKeySetPaginator c2Base 2 none
        (some ⟨some "forward", some [("name", 5)]⟩)) =
      .error (.keySetPairsMismatchQueryError ["name"] ["id"]) :=
  (keyset_bookmark_mismatch_validation c2Base 2 none (some "forward")
    [("name", 5)]).1 (by decide)

theorem list_any_congr {α : Type} (l : List α) (f g : α → Bool) (h : ∀ x ∈ l, f x = g x) :
    l.any f = l.any g := by
  induction l with
  | nil => rfl
  | cons a t ih => simp only [List.any_cons, h a (by simp), ih fun x hx => h x (by simp [hx])]

theorem list_all_congr {α : Type} (l : List α) (f g : α → Bool) (h : ∀ x ∈ l, f x = g x) :
    l.all f = l.all g := by
  induction l with
  | nil => rfl
  | cons a t ih => simp only [List.all_cons, h a (by simp), ih fun x hx => h x (by simp [hx])]

theorem list_any_map {α β : Type} (f : α → β) (l : List α) (p : β → Bool) :
    (l.map f).any p = l.any (p ∘ f) := by
  induction l with
  | nil => rfl
  | cons a t ih => simp [ih, Function.comp]

theorem list_all_map {α β : Type} (f : α → β) (l : List α) (p : β → Bool) :
    (l.map f).all p = l.all (p ∘ f) := by
  induction l with
  | nil => rfl
  | cons a t ih => simp [ih, Function.comp]

theorem list_any_and_const {α : Type} (c : Bool) (l : List α) (f : α → Bool) :
    (l.any fun x => c && f x) = (c && l.any f) := by
  cases c <;> simp

/-- The decomposed disjunction-of-conjunctions, evaluated on two value
tuples, agrees with Python/SQL tuple-less-than. -/
theorem decomposed_any_eq_tupleLt : ∀ (as bs : List Int), as.length = bs.length →
    ((List.range as.length).any fun d =>
      ((List.range d).all fun i => decide (as.getD i 0 = bs.getD i 0)) &&
      decide (as.getD d 0 < bs.getD d 0)) = tupleLtB as bs := by
  intro as
  induction as with
  | nil =>
    intro bs h
    cases bs with
    | nil => rfl
    | cons b t => simp at h
  | cons a as ih =>
    intro bs h
    cases bs with
    | nil => simp at h
    | cons b bs =>
      simp only [List.length_cons, Nat.add_eq, Nat.add_right_cancel_iff] at h
      rw [List.length_cons, List.range_succ_eq_map, List.any_cons, List.any_map]
      have h0 : (((List.range 0).all fun i =>
          decide ((a :: as).getD i 0 = (b :: bs).getD i 0)) &&
          decide ((a :: as).getD 0 0 < (b :: bs).getD 0 0)) = decide (a < b) := by
        simp
      rw [h0]
      have hsucc : ∀ d ∈ List.range as.length,
          ((fun d => ((List.range d).all fun i =>
              decide ((a :: as).getD i 0 = (b :: bs).getD i 0)) &&
              decide ((a :: as).getD d 0 < (b :: bs).getD d 0)) ∘ Nat.succ) d =
          (decide (a = b) &&
            (((List.range d).all fun i => decide (as.getD i 0 = bs.getD i 0)) &&
             decide (as.getD d 0 < bs.getD d 0))) := by
        intro d _
        simp only [Function.comp]
        rw [List.range_succ_eq_map, List.all_cons, List.all_map]
        simp only [List.getD_cons_zero, List.getD_cons_succ, Function.comp, Bool.and_assoc]
        rw [list_all_congr (List.range d)
          ((fun i => decide ((a :: as).getD i 0 = (b :: bs).getD i 0)) ∘ Nat.succ)
          (fun i => decide (as.getD i 0 = bs.getD i 0))
          (fun i _ => by simp [Function.comp, List.getD_cons_succ])]
      rw [list_any_congr _ _ _ hsucc, list_any_and_const, ih bs h]
      by_cases hab : a < b <;> by_cases heq : a = b <;>
        simp [tupleLtB, hab, heq]

theorem evalAny_eq_any (row : Row) (ps : List SqlPred) :
    evalAny row ps = ps.any (evalPred row) := by
  induction ps with
  | nil => rfl
  | cons p t ih => simp [evalAny, ih]

theorem evalAll_eq_all (row : Row) (ps : List SqlPred) :
    evalAll row ps = ps.all (evalPred row) := by
  induction ps with
  | nil => rfl
  | cons p t ih => simp [evalAll, ih]

theorem getD_map_lit (l : List Int) (i : Nat) :
    (l.map SqlOperand.lit).getD i (.lit 0) = .lit (l.getD i 0) := by
  rw [List.getD_eq_getElem?_getD, List.getD_eq_getElem?_getD,
    List.getElem?_map SqlOperand.lit l i]
  cases l[i]? <;> rfl

theorem map_evalOp_lit (row : Row) (l : List Int) :
    (l.map SqlOperand.lit).map (SqlOperand.evalOp row) = l := by
  induction l with
  | nil => rfl
  | cons a t ih => simp [SqlOperand.evalOp, ih]

/-- C3: for every pair of equal-length value tuples with at least two
keys, the decomposed predicate `_compare_sql_row_values` builds when the
dialect lacks native row-value comparison evaluates to `true` exactly when
the `lesser` tuple is lexicographically below the `greater` tuple —
i.e. exactly when the native `tuple_(*lesser) < tuple_(*greater)`
comparison would. -/
theorem lexicographic_expansion_equiv (lesser greater : List Int) (row : Row)
    (dialect : Option String)
    (hlen : lesser.length = greater.length) (hn : 2 ≤ lesser.length)
    (hd : dialectSupportsNativeRowValues dialect = false) :
    ∃ p, compare_sql_row_values dialect (lesser.map .lit) (greater.map .lit) = .ok p ∧
      evalPred row p = tupleLtB lesser greater ∧
      evalPred row (.tupleLtP (lesser.map .lit) (greater.map .lit)) =
        tupleLtB lesser greater := by
  have hcmp : compare_sql_row_values dialect (lesser.map .lit) (greater.map .lit) =
      .ok (.orP ((List.range (lesser.map SqlOperand.lit).length).map
        fun eq_depth => .andP (((List.range eq_depth).map fun index =>
            SqlPred.eqP ((lesser.map .lit).getD index (.lit 0))
              ((greater.map .lit).getD index (.lit 0)))
          ++ [SqlPred.ltP ((lesser.map .lit).getD eq_depth (.lit 0))
              ((greater.map .lit).getD eq_depth (.lit 0))]))) := by
    unfold compare_sql_row_values
    rw [if_neg (not_not_intro (by simp [hlen])),
      if_neg (by simp [List.length_map]; omega),
      if_neg (by rw [hd]; exact Bool.false_ne_true)]
  refine ⟨_, hcmp, ?_, ?_⟩
  · rw [show evalPred row (.orP ((List.range (lesser.map SqlOperand.lit).length).map
        fun eq_depth => .andP (((List.range eq_depth).map fun index =>
            SqlPred.eqP ((lesser.map .lit).getD index (.lit 0))
              ((greater.map .lit).getD index (.lit 0)))
          ++ [SqlPred.ltP ((lesser.map .lit).getD eq_depth (.lit 0))
              ((greater.map .lit).getD eq_depth (.lit 0))]))) =
        evalAny row ((List.range (lesser.map SqlOperand.lit).length).map
        fun eq_depth => .andP (((List.range eq_depth).map fun index =>
            SqlPred.eqP ((lesser.map .lit).getD index (.lit 0))
              ((greater.map .lit).getD index (.lit 0)))
          ++ [SqlPred.ltP ((lesser.map .lit).getD eq_depth (.lit 0))
              ((greater.map .lit).getD eq_depth (.lit 0))])) from rfl]
    rw [evalAny_eq_any, list_any_map, List.length_map]
    rw [list_any_congr (List.range lesser.length) _
      (fun d => ((List.range d).all fun i =>
          decide (lesser.getD i 0 = greater.getD i 0)) &&
        decide (lesser.getD d 0 < greater.getD d 0)) ?_]
    · exact decomposed_any_eq_tupleLt lesser greater hlen
    · intro d _
      simp only [Function.comp]
      rw [show ∀ ps, evalPred row (.andP ps) = evalAll row ps from fun ps => rfl]
      rw [evalAll_eq_all, List.all_append, list_all_map]
      simp only [getD_map_lit, List.all_cons, List.all_nil, Bool.and_true]
      rw [list_all_congr (List.range d) _
        (fun i => decide (lesser.getD i 0 = greater.getD i 0))
        (fun i _ => by simp [Function.comp, getD_map_lit, evalPred, SqlOperand.evalOp])]
      simp [evalPred, SqlOperand.evalOp]
  · rw [show evalPred row (.tupleLtP (lesser.map .lit) (greater.map .lit)) =
        tupleLtB ((lesser.map SqlOperand.lit).map (SqlOperand.evalOp row))
          ((greater.map SqlOperand.lit).map (SqlOperand.evalOp row)) from rfl]
    rw [map_evalOp_lit, map_evalOp_lit]

/-- C3 witness: a concrete two-key instance, with the middle conjunct
evaluated on both orders of the pair (1, 5) vs (2, 3). -/
theorem lexicographic_expansion_equiv_witness :
    ∃ p, compare_sql_row_values none ([1, 5].map .lit) ([2, 3].map .lit) = .ok p ∧
      evalPred [] p = tupleLtB [1, 5] [2, 3] ∧
      evalPred [] (.tupleLtP ([1, 5].map .lit) ([2, 3].map .lit)) =
        tupleLtB [1, 5] [2, 3] :=
  lexicographic_expansion_equiv [1, 5] [2, 3] [] none (by decide) (by decide) (by decide)

/-- Flipping the first asc/desc modifier is an involution at any fixed
fuel, and preserves the existence of a direction. -/
theorem reverseAux_invol : ∀ (fuel : Nat) (e e' : ColElem),
    get_order_direction e ≠ none → reverseAux fuel e = .ok e' →
    reverseAux fuel e' = .ok e ∧ get_order_direction e' ≠ none := by
  intro fuel
  induction fuel with
  | zero => intro e e' _ h; cases h
  | succ fuel ih =>
    intro e e' hdir h
    cases e with
    | col n => exact absurd rfl hdir
    | label n c =>
      have hdc : get_order_direction c ≠ none := by
        simpa [get_order_direction] using hdir
      simp only [reverseAux] at h
      revert h
      cases hc : reverseAux fuel c with
      | error err => intro h; cases h
      | ok c' =>
        intro h
        cases h
        obtain ⟨hrev, hd'⟩ := ih c c' hdc hc
        refine ⟨?_, by simpa [get_order_direction] using hd'⟩
        simp only [reverseAux, hrev]
    | unary m c =>
      match m with
      | some .ascOp =>
        simp only [reverseAux] at h
        cases h
        exact ⟨rfl, by simp [get_order_direction]⟩
      | some .descOp =>
        simp only [reverseAux] at h
        cases h
        exact ⟨rfl, by simp [get_order_direction]⟩
      | some .nullsfirstOp =>
        have hdc : get_order_direction c ≠ none := by
          simpa [get_order_direction] using hdir
        simp only [reverseAux] at h
        revert h
        cases hc : reverseAux fuel c with
        | error err => intro h; cases h
        | ok c' =>
          intro h
          cases h
          obtain ⟨hrev, hd'⟩ := ih c c' hdc hc
          refine ⟨?_, by simpa [get_order_direction] using hd'⟩
          simp only [reverseAux, hrev]
      | some .nullslastOp =>
        have hdc : get_order_direction c ≠ none := by
          simpa [get_order_direction] using hdir
        simp only [reverseAux] at h
        revert h
        cases hc : reverseAux fuel c with
        | error err => intro h; cases h
        | ok c' =>
          intro h
          cases h
          obtain ⟨hrev, hd'⟩ := ih c c' hdc hc
          refine ⟨?_, by simpa [get_order_direction] using hd'⟩
          simp only [reverseAux, hrev]
      | none =>
        have hdc : get_order_direction c ≠ none := by
          simpa [get_order_direction] using hdir
        simp only [reverseAux] at h
        revert h
        cases hc : reverseAux fuel c with
        | error err => intro h; cases h
        | ok c' =>
          intro h
          cases h
          obtain ⟨hrev, hd'⟩ := ih c c' hdc hc
          refine ⟨?_, by simpa [get_order_direction] using hd'⟩
          simp only [reverseAux, hrev]

/-- C7: `OrderByColumnWrapper.reversed` is an involution: reversing an
ordering key twice restores the original wrapper chain — same underlying
column/expression, same direction — whether the asc/desc modifier sits at
the top of the chain or nested below labels or nulls modifiers; hence
reversing a whole ordering specification twice restores every key in
order. -/
theorem ordering_reversal_involution :
    (∀ e e1 : ColElem, get_order_direction e ≠ none →
      wrapper_reversed e = .ok e1 → wrapper_reversed e1 = .ok e) ∧
    (∀ ks ks1 : List ColElem, (∀ e ∈ ks, get_order_direction e ≠ none) →
      ks.mapM wrapper_reversed = .ok ks1 → ks1.mapM wrapper_reversed = .ok ks) := by
  have part1 : ∀ e e1 : ColElem, get_order_direction e ≠ none →
      wrapper_reversed e = .ok e1 → wrapper_reversed e1 = .ok e := by
    intro e e1 hdir h
    unfold wrapper_reversed reverse_order_direction at h ⊢
    revert h
    cases hr : reverseAux WRAPPING_DEPTH e with
    | error err => intro h; cases h
    | ok e2 =>
      intro h
      obtain ⟨hrev, hd2⟩ := reverseAux_invol WRAPPING_DEPTH e e2 hdir hr
      have he1 : e1 = e2 := by
        have : wrapperNormalize e2 = e2 := by
          unfold wrapperNormalize; rw [if_neg hd2]
        simp only [this] at h
        cases h
        rfl
      subst he1
      rw [hrev]
      have hne : wrapperNormalize e = e := by
        unfold wrapperNormalize; rw [if_neg hdir]
      show Except.ok (wrapperNormalize e) = Except.ok e
      rw [hne]
  refine ⟨part1, ?_⟩
  intro ks
  induction ks with
  | nil =>
    intro ks1 _ h
    cases h
    rfl
  | cons e ks ih =>
    intro ks1 hdir h
    rw [List.mapM_cons] at h
    revert h
    cases hw : wrapper_reversed e with
    | error err => intro h; cases h
    | ok e1 =>
      cases hm : ks.mapM wrapper_reversed with
      | error err => intro h; cases h
      | ok ks1' =>
        intro h
        have h' : (Except.ok (e1 :: ks1') : Except PaginationError (List ColElem)) =
            Except.ok ks1 := h
        cases h'
        rw [List.mapM_cons]
        have hdir_e : get_order_direction e ≠ none := hdir e (by simp)
        rw [part1 e e1 hdir_e hw]
        rw [ih ks1' (fun x hx => hdir x (by simp [hx])) hm]
        rfl

/-- C7 witness: reversing `asc(col c)` gives `desc(col c)`, and reversing
that restores `asc(col c)`. -/
theorem ordering_reversal_involution_witness :
    wrapper_reversed (.unary (some .descOp) (.col "c")) =
      .ok (.unary (some .ascOp) (.col "c")) :=
  ordering_reversal_involution.1 (.unary (some .ascOp) (.col "c"))
    (.unary (some .descOp) (.col "c")) (by decide) rfl

/-- Direction reading sees through label chains of any depth. -/
theorem getdir_labelChain (n : Nat) (e : ColElem) :
    get_order_direction (labelChain n e) = get_order_direction e := by
  induction n with
  | zero => rfl
  | succ n ih => rw [labelChain, get_order_direction, ih]

/-- `_reverse_order_direction` exhausts its fuel on a label chain at least
as long as the fuel. -/
theorem reverseAux_labelChain_overflow : ∀ (fuel n : Nat) (e : ColElem), fuel ≤ n →
    reverseAux fuel (labelChain n e) = .error (.exceptionError WRAPPING_OVERFLOW) := by
  intro fuel
  induction fuel with
  | zero => intro n e _; rfl
  | succ fuel ih =>
    intro n e hle
    cases n with
    | zero => omega
    | succ k =>
      rw [labelChain, reverseAux, ih k e (by omega)]

/-- `_remove_order_direction` exhausts its fuel on a label chain at least
as long as the fuel. -/
theorem removeAux_labelChain_overflow : ∀ (fuel n : Nat) (e : ColElem), fuel ≤ n →
    removeAux fuel (labelChain n e) = .error (.exceptionError WRAPPING_OVERFLOW) := by
  intro fuel
  induction fuel with
  | zero => intro n e _; rfl
  | succ fuel ih =>
    intro n e hle
    cases n with
    | zero => omega
    | succ k =>
      rw [labelChain, removeAux, ih k e (by omega)]

/-- C9 counterexample: a wrapper chain of 1000 labels around `asc(col x)`
exceeds the `_WRAPPING_DEPTH` bound — `_reverse_order_direction` and
`_remove_order_direction` both fail on it with the wrapping-overflow
error — yet `_get_order_direction` does not fail with the
wrapping-overflow error as the claim requires: it recurses past the bound
and returns the direction. -/
theorem unwrapping_depth_guard_counterexample :
    get_order_direction
        (labelChain WRAPPING_DEPTH (.unary (some .ascOp) (.col "x"))) =
      some .ascOp ∧
    reverse_order_direction
        (labelChain WRAPPING_DEPTH (.unary (some .ascOp) (.col "x"))) =
      .error (.exceptionError WRAPPING_OVERFLOW) ∧
    remove_order_direction
        (labelChain WRAPPING_DEPTH (.unary (some .ascOp) (.col "x"))) =
      .error (.exceptionError WRAPPING_OVERFLOW) := by
  refine ⟨?_, ?_, ?_⟩
  · rw [getdir_labelChain]; rfl
  · exact reverseAux_labelChain_overflow WRAPPING_DEPTH WRAPPING_DEPTH _ (le_refl _)
  · exact removeAux_labelChain_overflow WRAPPING_DEPTH WRAPPING_DEPTH _ (le_refl _)

/-- C9 amended: `_reverse_order_direction` and `_remove_order_direction`
are depth-bounded — on a wrapper chain at least `_WRAPPING_DEPTH` deep
they terminate with the explicit wrapping-overflow error — while
`_get_order_direction` has no depth bound: it terminates on every finite
wrapper chain, seeing through arbitrarily many wrappers (cyclic object
graphs are not representable in this embedding; in Python they would hit
the interpreter recursion limit, not the wrapping-overflow error). -/
theorem bounded_unwrapping_amended (n : Nat) (e : ColElem) :
    get_order_direction (labelChain n e) = get_order_direction e ∧
    (WRAPPING_DEPTH ≤ n →
      reverse_order_direction (labelChain n e) =
        .error (.exceptionError WRAPPING_OVERFLOW) ∧
      remove_order_direction (labelChain n e) =
        .error (.exceptionError WRAPPING_OVERFLOW)) := by
  refine ⟨getdir_labelChain n e, fun hle => ⟨?_, ?_⟩⟩
  · exact reverseAux_labelChain_overflow WRAPPING_DEPTH n e hle
  · exact removeAux_labelChain_overflow WRAPPING_DEPTH n e hle

/-- C9 amended witness: instantiation at a chain of exactly
`_WRAPPING_DEPTH` labels. -/
theorem bounded_unwrapping_amended_witness :
    get_order_direction (labelChain 1000 (.col "x")) = none ∧
    reverse_order_direction (labelChain 1000 (.col "x")) =
      .error (.exceptionError WRAPPING_OVERFLOW) :=
  ⟨(bounded_unwrapping_amended 1000 (.col "x")).1.trans rfl,
   ((bounded_unwrapping_amended 1000 (.col "x")).2 (by decide)).1⟩
